import Mathlib

/-!
Verification of the WAV codec core (`src/lib.rs` of the `wav` crate).

The embedding models:
* the `Header` record and its byte codec (`header.rs` is not in the
  source tree, so its codec is modelled from the spec, section 4.1/6);
* the `BitDepth` tagged union (`bit_depth.rs` is likewise modelled from
  the spec, section 3);
* the sample encode path of `write` and the sample decode path of
  `read_data`, translated directly from `lib.rs`;
* the container-level orchestration (`read`, `read_header`, `read_data`,
  `verify_wav_file`, `write`), with the external `riff` collaborator
  abstracted as a form type plus an ordered list of tagged chunks, as the
  spec's external-interface contract (section 6) describes.

Machine integers are modelled as `Nat` (unsigned) and `Int` (signed) with
explicit two's-complement conversions at the byte boundary.
-/

namespace Wav

/-- Modelled from the spec: the 16-byte format-description record declared in
the missing `header.rs`.  Field names and order follow section 3 of the spec
and the field accesses in `lib.rs`.  `audio_format`, `channel_count`,
`block_align`, `bits_per_sample` are u16; `sampling_rate`,
`bytes_per_second` are u32. -/
structure Header where
  audio_format : Nat
  channel_count : Nat
  sampling_rate : Nat
  bytes_per_second : Nat
  block_align : Nat
  bits_per_sample : Nat
  deriving Repr, DecidableEq

/-- A `Header` whose fields fit their declared machine widths. -/
def Header.InRange (h : Header) : Prop :=
  h.audio_format < 65536 ∧ h.channel_count < 65536 ∧
  h.sampling_rate < 4294967296 ∧ h.bytes_per_second < 4294967296 ∧
  h.block_align < 65536 ∧ h.bits_per_sample < 65536

instance (h : Header) : Decidable h.InRange := by
  unfold Header.InRange; infer_instance

/-- Modelled from the spec: the `BitDepth` tagged union declared in the
missing `bit_depth.rs`: one variant per supported depth plus the `Empty`
sentinel.  `Eight` carries u8 samples, `Sixteen` i16 samples, `TwentyFour`
i32 samples (section 3 of the spec, and the `match` arms in `lib.rs`). -/
inductive BitDepth where
  | Empty : BitDepth
  | Eight : List Nat → BitDepth
  | Sixteen : List Int → BitDepth
  | TwentyFour : List Int → BitDepth
  deriving Repr, DecidableEq

/-- Little-endian bytes of a u16 value, `x.to_le_bytes()` for `u16`. -/
def u16le (x : Nat) : List Nat :=
  [x % 256, x / 256 % 256]

/-- Little-endian bytes of a u32 value, `x.to_le_bytes()` for `u32`. -/
def u32le (x : Nat) : List Nat :=
  [x % 256, x / 256 % 256, x / 65536 % 256, x / 16777216 % 256]

/-- Modelled from the spec: `<[u8; 16]>::from(header)` of the missing
`header.rs`.  Serializes the six fields little-endian in declaration order
into 16 bytes (spec sections 4.1 and 6). -/
def headerToBytes (h : Header) : List Nat :=
  u16le h.audio_format ++ u16le h.channel_count ++
  u32le h.sampling_rate ++ u32le h.bytes_per_second ++
  u16le h.block_align ++ u16le h.bits_per_sample

/-- Modelled from the spec: `Header::try_from(&[u8])` of the missing
`header.rs`.  Fails if fewer than 16 bytes are supplied, otherwise extracts
the six little-endian fields from the first 16 bytes (spec section 4.1). -/
def headerTryFrom (bs : List Nat) : Except String Header :=
  match bs with
  | b0 :: b1 :: b2 :: b3 :: b4 :: b5 :: b6 :: b7 ::
    b8 :: b9 :: b10 :: b11 :: b12 :: b13 :: b14 :: b15 :: _ =>
    .ok {
      audio_format := b0 + 256 * b1
      channel_count := b2 + 256 * b3
      sampling_rate := b4 + 256 * b5 + 65536 * b6 + 16777216 * b7
      bytes_per_second := b8 + 256 * b9 + 65536 * b10 + 16777216 * b11
      block_align := b12 + 256 * b13
      bits_per_sample := b14 + 256 * b15
    }
  | _ => .error "invalid header data"

/-- Little-endian bytes of an i16 sample: `s.to_le_bytes()` for `i16`,
the pair then emitted in order by `PairIter` in `write`. -/
def i16ToBytes (s : Int) : List Nat :=
  u16le (s % 65536).toNat

/-- Little-endian bytes of an i32 sample: `s.to_le_bytes()` for `i32`. -/
def i32le (s : Int) : List Nat :=
  u32le (s % 4294967296).toNat

/-- The 3-byte serialization of one 24-bit sample in `write`:
`s.to_le_bytes().split_at(1).1`, that is, the little-endian 4-byte
representation with its first (least-significant) byte dropped, the triple
then emitted in order by `TripletIter`. -/
def i24ToBytes (s : Int) : List Nat :=
  (i32le s).drop 1

/-- `i16::from_le_bytes([b0, b1])` in `read_data`. -/
def i16FromBytes (b0 b1 : Nat) : Int :=
  if b0 + 256 * b1 < 32768 then ((b0 + 256 * b1 : Nat) : Int)
  else ((b0 + 256 * b1 : Nat) : Int) - 65536

/-- `i32::from_le_bytes([0, b0, b1, b2])` in `read_data`: the three payload
bytes are placed in positions 1..3 of the little-endian representation and
the least-significant byte is zero. -/
def i32FromBytes0 (b0 b1 b2 : Nat) : Int :=
  if 256 * b0 + 65536 * b1 + 16777216 * b2 < 2147483648 then
    ((256 * b0 + 65536 * b1 + 16777216 * b2 : Nat) : Int)
  else ((256 * b0 + 65536 * b1 + 16777216 * b2 : Nat) : Int) - 4294967296

/-- `data_bytes.chunks_exact(2)` in `read_data`: the complete 2-byte groups
of a byte sequence, any trailing partial group dropped. -/
def chunksExact2 : List Nat → List (Nat × Nat)
  | b0 :: b1 :: rest => (b0, b1) :: chunksExact2 rest
  | _ => []

/-- `data_bytes.chunks_exact(3)` in `read_data`: the complete 3-byte groups
of a byte sequence, any trailing partial group dropped. -/
def chunksExact3 : List Nat → List (Nat × Nat × Nat)
  | b0 :: b1 :: b2 :: rest => (b0, b1, b2) :: chunksExact3 rest
  | _ => []

/-- A sub-chunk of the RIFF container, as the external `riff` collaborator
exposes it to this crate: a 4-byte id tag (`c.id()`) and the raw payload
bytes (`c.read_contents(reader)`), per the external-interface contract of
the spec, section 6. -/
structure Chunk where
  id : String
  contents : List Nat
  deriving Repr, DecidableEq

/-- The RIFF container as the external `riff` collaborator exposes it: the
outer form type (`wav.read_type(reader)`) and the sub-chunks in file order
(`wav.iter(reader)`), per the spec, section 6. -/
structure RiffFile where
  formType : String
  chunks : List Chunk
  deriving Repr, DecidableEq

/-- `verify_wav_file`: confirms the outer form type equals `"WAVE"`, any
other form type is the fatal error. -/
def verify_wav_file (f : RiffFile) : Except String RiffFile :=
  if f.formType = "WAVE" then .ok f
  else .error "RIFF file type not WAVE"

/-- The first sub-chunk whose id equals `tag`, as the `for c in wav.iter`
loops of `read_header` and `read_data` locate it. -/
def findChunk (tag : String) (f : RiffFile) : Option (List Nat) :=
  (f.chunks.find? (fun c => c.id == tag)).map Chunk.contents

/-- The `match header.bits_per_sample` of `read_data`: decode the raw data
payload at the declared bit depth.  8-bit keeps the bytes verbatim; 16-bit
maps each exact 2-byte group through `i16::from_le_bytes`; 24-bit maps each
exact 3-byte group through `i32::from_le_bytes([0, i[0], i[1], i[2]])`; any
other depth is the unsupported-bit-depth error. -/
def decodeData (bits : Nat) (bs : List Nat) : Except String BitDepth :=
  if bits = 8 then .ok (.Eight bs)
  else if bits = 16 then
    .ok (.Sixteen ((chunksExact2 bs).map (fun p => i16FromBytes p.1 p.2)))
  else if bits = 24 then
    .ok (.TwentyFour ((chunksExact3 bs).map (fun t => i32FromBytes0 t.1 t.2.1 t.2.2)))
  else .error "Unsupported bit depth"

/-- `read_header`: validate the container, locate the first `"fmt "` chunk,
parse its contents into a `Header`, and reject any non-PCM audio format. -/
def read_header (f : RiffFile) : Except String Header :=
  match verify_wav_file f with
  | .error e => .error e
  | .ok wav =>
    match findChunk "fmt " wav with
    | some bs =>
      match headerTryFrom bs with
      | .error e => .error e
      | .ok header =>
        if header.audio_format ≠ 1 then
          .error "Unsupported data format, data is not in uncompressed PCM format, aborting"
        else .ok header
    | none => .error "RIFF data is missing the fmt chunk, aborting"

/-- `read_data`: validate the container, locate the first `"data"` chunk,
and decode its payload at the header's declared bit depth. -/
def read_data (f : RiffFile) (header : Header) : Except String BitDepth :=
  match verify_wav_file f with
  | .error e => .error e
  | .ok wav =>
    match findChunk "data" wav with
    | some bs => decodeData header.bits_per_sample bs
    | none => .error "Could not parse audio data"

/-- `read`: extract the header, then the audio data decoded at the
header's declared bit depth. -/
def read (f : RiffFile) : Except String (Header × BitDepth) :=
  match read_header f with
  | .error e => .error e
  | .ok header =>
    match read_data f header with
    | .error e => .error e
    | .ok d => .ok (header, d)

/-- The `match track` of `write` building the `"data"` chunk payload:
`Eight` bytes verbatim; `Sixteen` samples each through `to_le_bytes` and
`PairIter`; `TwentyFour` samples each through
`to_le_bytes().split_at(1).1` and `TripletIter`; `Empty` is the
encode-time error (`None` here, mapped to the error by `write`). -/
def encodeTrack : BitDepth → Option (List Nat)
  | .Eight v => some v
  | .Sixteen v => some (v.flatMap i16ToBytes)
  | .TwentyFour v => some (v.flatMap i24ToBytes)
  | .Empty => none

/-- `write`: serialize the header into the `"fmt "` chunk and the track
into the `"data"` chunk, assembled as the two children of a `"WAVE"`
container; encoding `Empty` fails before any container value is formed, so
nothing reaches the writer on that error. -/
def write (header : Header) (track : BitDepth) : Except String RiffFile :=
  match encodeTrack track with
  | some d => .ok { formType := "WAVE",
                    chunks := [⟨"fmt ", headerToBytes header⟩, ⟨"data", d⟩] }
  | none => .error "Empty audio data given"

/-- A valid `Header` in the sense of the round-trip property: fields fit
their machine widths and the format tag is PCM (`audio_format = 1`), which
the spec (section 3) requires for decode to succeed. -/
def Header.Valid (h : Header) : Prop :=
  h.InRange ∧ h.audio_format = 1

/-- The variant of the track matches the declared bits-per-sample of the
header (`Eight` with 8, `Sixteen` with 16, `TwentyFour` with 24); the
`Empty` variant matches nothing. -/
def matchesDepth (h : Header) : BitDepth → Prop
  | .Eight _ => h.bits_per_sample = 8
  | .Sixteen _ => h.bits_per_sample = 16
  | .TwentyFour _ => h.bits_per_sample = 24
  | .Empty => False

/-- Samples fit the machine integer type of their variant (`u8`, `i16`,
`i32`), which the Rust vector element types enforce by construction. -/
def BitDepth.SamplesInRange : BitDepth → Prop
  | .Empty => True
  | .Eight v => ∀ x ∈ v, x < 256
  | .Sixteen v => ∀ s ∈ v, -32768 ≤ s ∧ s < 32768
  | .TwentyFour v => ∀ s ∈ v, -2147483648 ≤ s ∧ s < 2147483648

/-- Every 24-bit sample has a zero least-significant byte, the shape
`read_data` produces (it fills the low byte of each decoded `i32` with 0)
and the shape `write` preserves (it drops exactly that byte). -/
def BitDepth.LowByteZero : BitDepth → Prop
  | .TwentyFour v => ∀ s ∈ v, s % 256 = 0
  | _ => True

/-- Mathematical sign extension of a 24-bit unsigned value to an integer:
values at or above 2^23 represent negatives. -/
def sext24 (u : Nat) : Int :=
  if u < 8388608 then (u : Int) else (u : Int) - 16777216

/-- The complete 2-byte groups number exactly `length / 2`. -/
theorem chunksExact2_length : ∀ bs : List Nat, (chunksExact2 bs).length = bs.length / 2
  | [] => by
    have h : chunksExact2 [] = [] := rfl
    simp [h]
  | [b] => by
    have h : chunksExact2 [b] = [] := rfl
    simp [h]
  | _ :: _ :: rest => by
    have ih := chunksExact2_length rest
    simp only [chunksExact2, List.length_cons, ih]
    omega

/-- The complete 3-byte groups number exactly `length / 3`. -/
theorem chunksExact3_length : ∀ bs : List Nat, (chunksExact3 bs).length = bs.length / 3
  | [] => by
    have h : chunksExact3 [] = [] := rfl
    simp [h]
  | [b] => by
    have h : chunksExact3 [b] = [] := rfl
    simp [h]
  | [b, c] => by
    have h : chunksExact3 [b, c] = [] := rfl
    simp [h]
  | _ :: _ :: _ :: rest => by
    have ih := chunksExact3_length rest
    simp only [chunksExact3, List.length_cons, ih]
    omega

/-- Decoding the two little-endian bytes of an in-range `i16` sample
recovers the sample. -/
theorem i16FromBytes_toBytes (s : Int) (h1 : -32768 ≤ s) (h2 : s < 32768) :
    i16FromBytes ((s % 65536).toNat % 256) ((s % 65536).toNat / 256 % 256) = s := by
  simp only [i16FromBytes]
  split <;> omega

/-- Decoding the three emitted bytes of an in-range `i32` sample whose
least-significant byte is zero recovers the sample. -/
theorem i32FromBytes0_toBytes (s : Int) (h1 : -2147483648 ≤ s)
    (h2 : s < 2147483648) (h3 : s % 256 = 0) :
    i32FromBytes0 ((s % 4294967296).toNat / 256 % 256)
      ((s % 4294967296).toNat / 65536 % 256)
      ((s % 4294967296).toNat / 16777216 % 256) = s := by
  simp only [i32FromBytes0]
  split <;> omega

/-- Regrouping the concatenated 2-byte encodings of in-range `i16` samples
and decoding each group recovers the sample list. -/
theorem decode16_encode16 : ∀ v : List Int, (∀ s ∈ v, -32768 ≤ s ∧ s < 32768) →
    (chunksExact2 (v.flatMap i16ToBytes)).map (fun p => i16FromBytes p.1 p.2) = v
  | [], _ => rfl
  | s :: rest, hv => by
    have ih := decode16_encode16 rest (fun x hx => hv x (List.mem_cons_of_mem _ hx))
    have hs := hv s (List.mem_cons_self _ _)
    have hstep : (s :: rest).flatMap i16ToBytes =
        ((s % 65536).toNat % 256) :: ((s % 65536).toNat / 256 % 256) ::
        rest.flatMap i16ToBytes := rfl
    have hchunk : chunksExact2 (((s % 65536).toNat % 256) ::
        ((s % 65536).toNat / 256 % 256) :: rest.flatMap i16ToBytes) =
        ((s % 65536).toNat % 256, (s % 65536).toNat / 256 % 256) ::
        chunksExact2 (rest.flatMap i16ToBytes) := rfl
    rw [hstep, hchunk, List.map_cons, ih, i16FromBytes_toBytes s hs.1 hs.2]

/-- Regrouping the concatenated 3-byte encodings of in-range `i32` samples
whose least-significant bytes are zero and decoding each group recovers the
sample list. -/
theorem decode24_encode24 : ∀ v : List Int,
    (∀ s ∈ v, -2147483648 ≤ s ∧ s < 2147483648) → (∀ s ∈ v, s % 256 = 0) →
    (chunksExact3 (v.flatMap i24ToBytes)).map (fun t => i32FromBytes0 t.1 t.2.1 t.2.2) = v
  | [], _, _ => rfl
  | s :: rest, hv, hz => by
    have ih := decode24_encode24 rest (fun x hx => hv x (List.mem_cons_of_mem _ hx))
      (fun x hx => hz x (List.mem_cons_of_mem _ hx))
    have hs := hv s (List.mem_cons_self _ _)
    have hzs := hz s (List.mem_cons_self _ _)
    have hstep : (s :: rest).flatMap i24ToBytes =
        ((s % 4294967296).toNat / 256 % 256) :: ((s % 4294967296).toNat / 65536 % 256) ::
        ((s % 4294967296).toNat / 16777216 % 256) :: rest.flatMap i24ToBytes := rfl
    have hchunk : chunksExact3 (((s % 4294967296).toNat / 256 % 256) ::
        ((s % 4294967296).toNat / 65536 % 256) ::
        ((s % 4294967296).toNat / 16777216 % 256) :: rest.flatMap i24ToBytes) =
        ((s % 4294967296).toNat / 256 % 256, (s % 4294967296).toNat / 65536 % 256,
          (s % 4294967296).toNat / 16777216 % 256) ::
        chunksExact3 (rest.flatMap i24ToBytes) := rfl
    rw [hstep, hchunk, List.map_cons, ih, i32FromBytes0_toBytes s hs.1 hs.2 hzs]

/-- Parsing the 16 serialized bytes of an in-range header recovers the
header. -/
theorem headerTryFrom_toBytes (h : Header) (hr : h.InRange) :
    headerTryFrom (headerToBytes h) = .ok h := by
  obtain ⟨a, b, c, d, e, f⟩ := h
  obtain ⟨h1, h2, h3, h4, h5, h6⟩ := hr
  have ha : a < 65536 := h1
  have hb : b < 65536 := h2
  have hc : c < 4294967296 := h3
  have hd : d < 4294967296 := h4
  have he : e < 65536 := h5
  have hf : f < 65536 := h6
  simp only [headerToBytes, u16le, u32le, List.cons_append, List.nil_append,
    headerTryFrom, Except.ok.injEq, Header.mk.injEq]
  refine ⟨?_, ?_, ?_, ?_, ?_, ?_⟩ <;> omega

/-- A valid PCM header declaring 24-bit samples, used as a concrete input. -/
def exHeader24 : Header :=
  ⟨1, 1, 8000, 24000, 3, 24⟩

/-- A valid PCM header declaring 16-bit samples, used as a concrete input. -/
def exHeader16 : Header :=
  ⟨1, 1, 8000, 16000, 2, 16⟩

/-- A valid PCM header declaring 8-bit samples, used as a concrete input. -/
def exHeader8 : Header :=
  ⟨1, 1, 8000, 8000, 1, 8⟩

/-- C1, counterexample: for the valid 24-bit header `exHeader24` and the
matching non-empty track `TwentyFour [1]`, decoding the bytes produced by
`write` yields `TwentyFour [0]`, not the original track: the encoder drops
the least-significant byte of each 32-bit sample and the decoder refills it
with zero, so a sample whose low byte is nonzero does not round-trip. -/
theorem c1_roundtrip_counterexample :
    Header.Valid exHeader24 ∧
    matchesDepth exHeader24 (BitDepth.TwentyFour [1]) ∧
    BitDepth.TwentyFour [1] ≠ BitDepth.Empty ∧
    BitDepth.SamplesInRange (BitDepth.TwentyFour [1]) ∧
    (write exHeader24 (BitDepth.TwentyFour [1])).bind read =
      .ok (exHeader24, BitDepth.TwentyFour [0]) ∧
    BitDepth.TwentyFour [0] ≠ BitDepth.TwentyFour [1] := by
  refine ⟨⟨by decide, rfl⟩, rfl, by decide, ?_, rfl, by decide⟩
  intro s hs
  simp only [List.mem_singleton] at hs
  subst hs
  exact ⟨by norm_num, by norm_num⟩

/-- C1 (amended): for every valid header `h` and every non-empty track `b`
whose variant matches `h.bits_per_sample` and whose samples fit their
machine type, decoding the bytes produced by `write h b` yields exactly
`(h, b)` — provided that every 24-bit sample has a zero least-significant
byte (the shape `read` itself produces); 8-bit and 16-bit tracks
round-trip unconditionally. -/
theorem c1_roundtrip_amended (h : Header) (b : BitDepth)
    (hv : h.Valid) (hm : matchesDepth h b)
    (hs : b.SamplesInRange) (hz : b.LowByteZero) :
    (write h b).bind read = .ok (h, b) := by
  obtain ⟨hr, hpcm⟩ := hv
  have hdr := headerTryFrom_toBytes h hr
  cases b with
  | Empty => exact hm.elim
  | Eight v =>
    have hbits : h.bits_per_sample = 8 := hm
    simp [write, encodeTrack, Except.bind, read, read_header, read_data,
      verify_wav_file, findChunk, List.find?, hdr, hpcm, hbits, decodeData]
  | Sixteen v =>
    have hbits : h.bits_per_sample = 16 := hm
    have hd := decode16_encode16 v hs
    simp [write, encodeTrack, Except.bind, read, read_header, read_data,
      verify_wav_file, findChunk, List.find?, hdr, hpcm, hbits, decodeData, hd]
  | TwentyFour v =>
    have hbits : h.bits_per_sample = 24 := hm
    have hd := decode24_encode24 v hs hz
    simp [write, encodeTrack, Except.bind, read, read_header, read_data,
      verify_wav_file, findChunk, List.find?, hdr, hpcm, hbits, decodeData, hd]

/-- C1, witness: the amended round-trip at two concrete inputs, a 16-bit
track and a 24-bit track whose samples are multiples of 256. -/
theorem c1_roundtrip_witness :
    (write exHeader16 (BitDepth.Sixteen [-1, 5])).bind read =
      .ok (exHeader16, BitDepth.Sixteen [-1, 5]) ∧
    (write exHeader24 (BitDepth.TwentyFour [256, -256])).bind read =
      .ok (exHeader24, BitDepth.TwentyFour [256, -256]) := by
  constructor
  · exact c1_roundtrip_amended exHeader16 (BitDepth.Sixteen [-1, 5])
      ⟨by decide, rfl⟩ rfl
      (show ∀ s ∈ [(-1 : Int), 5], -32768 ≤ s ∧ s < 32768 by decide)
      trivial
  · exact c1_roundtrip_amended exHeader24 (BitDepth.TwentyFour [256, -256])
      ⟨by decide, rfl⟩ rfl
      (show ∀ s ∈ [(256 : Int), -256], -2147483648 ≤ s ∧ s < 2147483648 by decide)
      (show ∀ s ∈ [(256 : Int), -256], s % 256 = 0 by decide)

/-- C2, counterexample: decoding the 3-byte group `[1, 0, 0]` at 24-bit
depth yields the i32 value 256, not the sign-extended little-endian 24-bit
value 1 that the claim describes: the zero byte is placed at the
least-significant position, not the most-significant one. -/
theorem c2_decode24_counterexample :
    decodeData 24 [1, 0, 0] = .ok (BitDepth.TwentyFour [256]) ∧
    sext24 (1 + 256 * 0 + 65536 * 0) = 1 ∧
    (256 : Int) ≠ 1 :=
  ⟨rfl, rfl, by decide⟩

/-- C2 (amended): on decode at 24-bit depth, each 3-byte group
`[b0, b1, b2]` is interpreted as the little-endian signed 32-bit integer
whose bytes are `[0, b0, b1, b2]`: the decoded i32 equals 256 times the
sign-extended 24-bit little-endian value of the group, so the 24-bit
sample occupies the upper three bytes and the unused LOW byte of the i32
is zeroed. -/
theorem c2_decode24_amended (b0 b1 b2 : Nat)
    (h0 : b0 < 256) (h1 : b1 < 256) (h2 : b2 < 256) :
    i32FromBytes0 b0 b1 b2 = 256 * sext24 (b0 + 256 * b1 + 65536 * b2) ∧
    i32FromBytes0 b0 b1 b2 % 256 = 0 ∧
    decodeData 24 [b0, b1, b2] = .ok (BitDepth.TwentyFour [i32FromBytes0 b0 b1 b2]) := by
  refine ⟨?_, ?_, rfl⟩
  · simp only [i32FromBytes0, sext24]
    split <;> split <;> omega
  · simp only [i32FromBytes0]
    split <;> omega

/-- C2, witness: the amended decode shape at the concrete group
`[1, 2, 3]`. -/
theorem c2_decode24_witness :
    i32FromBytes0 1 2 3 = 256 * sext24 (1 + 256 * 2 + 65536 * 3) ∧
    i32FromBytes0 1 2 3 % 256 = 0 ∧
    decodeData 24 [1, 2, 3] = .ok (BitDepth.TwentyFour [i32FromBytes0 1 2 3]) :=
  c2_decode24_amended 1 2 3 (by decide) (by decide) (by decide)

/-- C3, counterexample: the 24-bit sample 1 is serialized to the bytes
`[0, 0, 0]`, not to the low three bytes `[1, 0, 0]` of its little-endian
representation that the claim describes: the encoder drops the
least-significant byte, not the most-significant one. -/
theorem c3_encode24_counterexample :
    encodeTrack (BitDepth.TwentyFour [1]) = some [0, 0, 0] ∧
    i32le 1 = [1, 0, 0, 0] ∧
    ([0, 0, 0] : List Nat) ≠ [1, 0, 0] :=
  ⟨rfl, rfl, by decide⟩

/-- C3 (amended): on encode, each 32-bit sample of a `TwentyFour` buffer
is serialized by taking its little-endian 4-byte representation and
dropping the LEAST-significant (first) byte, emitting the high 3 bytes,
samples concatenated in order; the sample -1 still encodes to
`[0xFF, 0xFF, 0xFF]`. -/
theorem c3_encode24_amended (v : List Int) (s : Int) :
    encodeTrack (BitDepth.TwentyFour v) =
      some (v.flatMap (fun t => (i32le t).drop 1)) ∧
    i24ToBytes s = (i32le s).drop 1 ∧
    i24ToBytes s = [(s % 4294967296).toNat / 256 % 256,
      (s % 4294967296).toNat / 65536 % 256,
      (s % 4294967296).toNat / 16777216 % 256] ∧
    i24ToBytes (-1) = [255, 255, 255] :=
  ⟨rfl, rfl, rfl, rfl⟩

/-- C4 (confirmed): decoding never errors on a payload whose length is not
a multiple of the sample width: at 16-bit depth it returns exactly
`length / 2` samples and at 24-bit depth exactly `length / 3` samples,
silently dropping the trailing partial group; each complete 2-byte group
is interpreted as a little-endian signed 16-bit integer (the decoded value
is congruent to `b0 + 256 * b1` modulo 2^16 and lies in the i16 range). -/
theorem c4_truncation (bs : List Nat) (b0 b1 : Nat)
    (h0 : b0 < 256) (h1 : b1 < 256) :
    (∃ v, decodeData 16 bs = .ok (BitDepth.Sixteen v) ∧ v.length = bs.length / 2) ∧
    (∃ w, decodeData 24 bs = .ok (BitDepth.TwentyFour w) ∧ w.length = bs.length / 3) ∧
    decodeData 16 bs =
      .ok (BitDepth.Sixteen ((chunksExact2 bs).map (fun p => i16FromBytes p.1 p.2))) ∧
    i16FromBytes b0 b1 % 65536 = (b0 : Int) + 256 * b1 ∧
    -32768 ≤ i16FromBytes b0 b1 ∧ i16FromBytes b0 b1 < 32768 := by
  refine ⟨⟨_, rfl, ?_⟩, ⟨_, rfl, ?_⟩, rfl, ?_, ?_, ?_⟩
  · exact (List.length_map _ _).trans (chunksExact2_length bs)
  · exact (List.length_map _ _).trans (chunksExact3_length bs)
  · simp only [i16FromBytes]
    split <;> omega
  · simp only [i16FromBytes]
    split <;> omega
  · simp only [i16FromBytes]
    split <;> omega

/-- C4, witness: truncation at the concrete 3-byte payload
`[255, 255, 7]` and byte bounds 255, 255. -/
theorem c4_truncation_witness :
    (∃ v, decodeData 16 [255, 255, 7] = .ok (BitDepth.Sixteen v) ∧
      v.length = [255, 255, 7].length / 2) ∧
    (∃ w, decodeData 24 [255, 255, 7] = .ok (BitDepth.TwentyFour w) ∧
      w.length = [255, 255, 7].length / 3) ∧
    decodeData 16 [255, 255, 7] =
      .ok (BitDepth.Sixteen ((chunksExact2 [255, 255, 7]).map
        (fun p => i16FromBytes p.1 p.2))) ∧
    i16FromBytes 255 255 % 65536 = (255 : Int) + 256 * 255 ∧
    -32768 ≤ i16FromBytes 255 255 ∧ i16FromBytes 255 255 < 32768 :=
  c4_truncation [255, 255, 7] 255 255 (by decide) (by decide)

/-- C5 (confirmed): for every header, writing `BitDepth.Empty` fails with
the designated encode-time error, and no container value is produced (the
error return happens before anything is handed to the writer, so the
writer receives no bytes). -/
theorem c5_write_empty (h : Header) :
    write h BitDepth.Empty = .error "Empty audio data given" ∧
    ∀ f : RiffFile, write h BitDepth.Empty ≠ .ok f := by
  refine ⟨rfl, fun f hf => ?_⟩
  rw [show write h BitDepth.Empty = .error "Empty audio data given" from rfl] at hf
  exact Except.noConfusion hf

/-- C5, witness: the empty-track error at a concrete header and the
impossibility of any concrete success value. -/
theorem c5_write_empty_witness :
    write exHeader16 BitDepth.Empty = .error "Empty audio data given" ∧
    write exHeader16 BitDepth.Empty ≠ .ok ⟨"WAVE", []⟩ :=
  ⟨(c5_write_empty exHeader16).1, (c5_write_empty exHeader16).2 ⟨"WAVE", []⟩⟩

/-- C6 (confirmed): for every byte source whose outer form type is not
`"WAVE"`, reading fails with the container-validation error; the same
error is already produced by `read_header` via `verify_wav_file`, before
any chunk is consulted or any header parsing is attempted (the result does
not depend on the chunk list at all). -/
theorem c6_not_wave (f : RiffFile) (hf : f.formType ≠ "WAVE") :
    read f = .error "RIFF file type not WAVE" ∧
    read_header f = .error "RIFF file type not WAVE" ∧
    verify_wav_file f = .error "RIFF file type not WAVE" := by
  have hv : verify_wav_file f = .error "RIFF file type not WAVE" := by
    simp [verify_wav_file, hf]
  have hrh : read_header f = .error "RIFF file type not WAVE" := by
    simp [read_header, hv]
  exact ⟨by simp [read, hrh], hrh, hv⟩

/-- C6, witness: a container with form type `"RIFX"` and a garbage
`"fmt "` chunk fails with the container error, the garbage never being
parsed. -/
theorem c6_not_wave_witness :
    read ⟨"RIFX", [⟨"fmt ", [1, 2, 3]⟩]⟩ = .error "RIFF file type not WAVE" ∧
    read_header ⟨"RIFX", [⟨"fmt ", [1, 2, 3]⟩]⟩ = .error "RIFF file type not WAVE" ∧
    verify_wav_file ⟨"RIFX", [⟨"fmt ", [1, 2, 3]⟩]⟩ = .error "RIFF file type not WAVE" :=
  c6_not_wave ⟨"RIFX", [⟨"fmt ", [1, 2, 3]⟩]⟩ (by decide)

/-- C7 (confirmed): for every container whose first `"fmt "` chunk parses
to a header with `audio_format ≠ 1`, reading fails with the
unsupported-format error, regardless of the declared bits-per-sample. -/
theorem c7_non_pcm (f : RiffFile) (h : Header) (bs : List Nat)
    (hw : f.formType = "WAVE")
    (hfmt : findChunk "fmt " f = some bs)
    (hparse : headerTryFrom bs = .ok h)
    (hfm : h.audio_format ≠ 1) :
    read_header f =
      .error "Unsupported data format, data is not in uncompressed PCM format, aborting" ∧
    read f =
      .error "Unsupported data format, data is not in uncompressed PCM format, aborting" := by
  have hv : verify_wav_file f = .ok f := by
    simp [verify_wav_file, hw]
  have hrh : read_header f =
      .error "Unsupported data format, data is not in uncompressed PCM format, aborting" := by
    simp [read_header, hv, hfmt, hparse, hfm]
  exact ⟨hrh, by simp [read, hrh]⟩

/-- C7, witness: a well-formed container whose header declares
`audio_format = 2` and a valid bit depth of 16 fails with the
unsupported-format error. -/
theorem c7_non_pcm_witness :
    read_header ⟨"WAVE", [⟨"fmt ", headerToBytes ⟨2, 1, 8000, 16000, 2, 16⟩⟩]⟩ =
      .error "Unsupported data format, data is not in uncompressed PCM format, aborting" ∧
    read ⟨"WAVE", [⟨"fmt ", headerToBytes ⟨2, 1, 8000, 16000, 2, 16⟩⟩]⟩ =
      .error "Unsupported data format, data is not in uncompressed PCM format, aborting" :=
  c7_non_pcm ⟨"WAVE", [⟨"fmt ", headerToBytes ⟨2, 1, 8000, 16000, 2, 16⟩⟩]⟩
    ⟨2, 1, 8000, 16000, 2, 16⟩ (headerToBytes ⟨2, 1, 8000, 16000, 2, 16⟩)
    rfl rfl rfl (by decide)

/-- C8 (confirmed): for every header whose declared bits-per-sample is not
8, 16, or 24, decoding the located sample chunk fails with the
unsupported-bit-depth error, and `read_data` returns that error rather
than any `BitDepth`. -/
theorem c8_unsupported_depth (f : RiffFile) (h : Header) (bs : List Nat)
    (hw : f.formType = "WAVE")
    (hdata : findChunk "data" f = some bs)
    (h8 : h.bits_per_sample ≠ 8)
    (h16 : h.bits_per_sample ≠ 16)
    (h24 : h.bits_per_sample ≠ 24) :
    decodeData h.bits_per_sample bs = .error "Unsupported bit depth" ∧
    read_data f h = .error "Unsupported bit depth" := by
  have hv : verify_wav_file f = .ok f := by
    simp [verify_wav_file, hw]
  have hdd : decodeData h.bits_per_sample bs = .error "Unsupported bit depth" := by
    simp [decodeData, h8, h16, h24]
  exact ⟨hdd, by simp [read_data, hv, hdata, hdd]⟩

/-- C8, witness: a header declaring 32 bits per sample fails to decode a
located data chunk with the unsupported-bit-depth error. -/
theorem c8_unsupported_depth_witness :
    decodeData 32 [1, 2] = .error "Unsupported bit depth" ∧
    read_data ⟨"WAVE", [⟨"data", [1, 2]⟩]⟩ ⟨1, 1, 8000, 32000, 4, 32⟩ =
      .error "Unsupported bit depth" :=
  c8_unsupported_depth ⟨"WAVE", [⟨"data", [1, 2]⟩]⟩ ⟨1, 1, 8000, 32000, 4, 32⟩
    [1, 2] rfl rfl (by decide) (by decide) (by decide)

/-- C9 (confirmed): `write` performs no consistency check between header
and track: for every header `h` and every non-`Empty` track `b`, `write`
succeeds, the `"fmt "` chunk payload depends only on `h` and the `"data"`
chunk payload only on `b`, even when `h.bits_per_sample` does not match
the variant of `b`. -/
theorem c9_no_consistency_check (h : Header) (b : BitDepth)
    (hb : b ≠ BitDepth.Empty) :
    ∃ d, encodeTrack b = some d ∧
      write h b = .ok ⟨"WAVE", [⟨"fmt ", headerToBytes h⟩, ⟨"data", d⟩]⟩ := by
  cases b with
  | Empty => exact absurd rfl hb
  | Eight v => exact ⟨v, rfl, rfl⟩
  | Sixteen v => exact ⟨v.flatMap i16ToBytes, rfl, rfl⟩
  | TwentyFour v => exact ⟨v.flatMap i24ToBytes, rfl, rfl⟩

/-- C9, witness: writing a 16-bit track under a header that declares 8
bits per sample succeeds, with the mismatched depths untouched. -/
theorem c9_no_consistency_check_witness :
    exHeader8.bits_per_sample = 8 ∧
    (∃ d, encodeTrack (BitDepth.Sixteen [-1]) = some d ∧
      write exHeader8 (BitDepth.Sixteen [-1]) =
        .ok ⟨"WAVE", [⟨"fmt ", headerToBytes exHeader8⟩, ⟨"data", d⟩]⟩) :=
  ⟨rfl, c9_no_consistency_check exHeader8 (BitDepth.Sixteen [-1]) (by decide)⟩

/-- A successful decode is never the `Empty` variant. -/
theorem decodeData_ne_empty (bits : Nat) (bs : List Nat) (b : BitDepth)
    (hb : decodeData bits bs = .ok b) : b ≠ BitDepth.Empty := by
  unfold decodeData at hb
  split_ifs at hb
  all_goals
    injection hb with hb
    subst hb
    exact fun hc => BitDepth.noConfusion hc

/-- A successful `read_data` is never the `Empty` variant. -/
theorem read_data_ne_empty (f : RiffFile) (h : Header) (b : BitDepth)
    (hb : read_data f h = .ok b) : b ≠ BitDepth.Empty := by
  unfold read_data at hb
  split at hb
  · exact Except.noConfusion hb
  · split at hb
    · exact decodeData_ne_empty _ _ _ hb
    · exact Except.noConfusion hb

/-- C10 (confirmed): every successful `read` returns a track that is never
the `Empty` variant, and a zero-length data payload decodes to the empty
sample vector of the declared depth rather than to `Empty`. -/
theorem c10_never_empty :
    (∀ f h b, read f = .ok (h, b) → b ≠ BitDepth.Empty) ∧
    decodeData 8 [] = .ok (BitDepth.Eight []) ∧
    decodeData 16 [] = .ok (BitDepth.Sixteen []) ∧
    decodeData 24 [] = .ok (BitDepth.TwentyFour []) := by
  refine ⟨?_, rfl, rfl, rfl⟩
  intro f h b hr
  unfold read at hr
  split at hr
  · exact Except.noConfusion hr
  · split at hr
    · exact Except.noConfusion hr
    · injection hr with hpair
      injection hpair with hh hb
      subst hh
      subst hb
      next hrd => exact read_data_ne_empty _ _ _ hrd

/-- C10, witness: reading a concrete well-formed 8-bit file returns the
non-`Empty` track `Eight [7]`. -/
theorem c10_never_empty_witness : BitDepth.Eight [7] ≠ BitDepth.Empty :=
  c10_never_empty.1 ⟨"WAVE", [⟨"fmt ", headerToBytes exHeader8⟩, ⟨"data", [7]⟩]⟩
    exHeader8 (BitDepth.Eight [7]) rfl

end Wav
